import Mathlib

/-!
Verification of the Specification-pattern example (src/specification/main.go).

The Go program defines a User entity, a family of specification structs
implementing the SpecificationUser interface (And, Or, Not combinators and
four leaf predicates), predefined composite rules, and a checkAccess gate
wrapping a specification and a handler.

The specification tree is embedded as a mutual inductive (the combinators
hold a list of child specifications), and IsSatisfiedBy is translated
clause by clause from the Go methods.  checkAccess is modelled as a pure
function whose result records the returned error (as an Option of the
formatted message) and the list of handler invocations.  A state-passing
variant of the evaluator and the gate makes the read-only treatment of the
entity explicit, for the frame property.
-/

namespace Specification

/-- Models Go strings.ToLower as used by the Name specification: lowercase
every rune of the string (ASCII case mapping, via Char.toLower). -/
def stringsToLower (s : String) : String := ⟨s.data.map Char.toLower⟩

/-- Go declares: type UserType int.  UserType is an integer type, with the
named constants below; other integer values are also legal UserType values. -/
abbrev UserType := Int

/-- Constant Personal, from the iota block. -/
def Personal : UserType := 0

/-- Constant Admin, from the iota block. -/
def Admin : UserType := 1

/-- Constant SuperAdmin, from the iota block. -/
def SuperAdmin : UserType := 2

/-- The User entity: categorical type, display name, locked flag. -/
structure User where
  type : UserType
  name : String
  locked : Bool
deriving DecidableEq

/-- The names map of the Go String method; a key not in the map yields the
zero value, the empty string. -/
def typeDisplayName (t : UserType) : String :=
  if t = Personal then "PERSONAL"
  else if t = Admin then "ADMIN"
  else if t = SuperAdmin then "SUPER ADMIN"
  else ""

/-- Go method User.String: renders the user as in
fmt.Sprintf with format string "%s (Type:%v Locked:%t)". -/
def User.String (u : User) : String :=
  u.name ++ " (Type:" ++ typeDisplayName u.type ++ " Locked:" ++
    (if u.locked then "true" else "false") ++ ")"

mutual

/-- The SpecificationUser interface: one constructor per concrete
specification struct of the source.  And and Or hold a slice of child
specifications, Not holds one child, the leaves hold their configuration. -/
inductive SpecificationUser : Type where
  | AndSpecification (specs : SpecList)
  | OrSpecification (specs : SpecList)
  | NotSpecification (spec : SpecificationUser)
  | TypeSpecification (typ : UserType)
  | NameLengthSpecification (l : Int)
  | NameSpecification (name : String)
  | LockedSpecification

/-- The specs slice of the And and Or combinators. -/
inductive SpecList : Type where
  | nil
  | cons (s : SpecificationUser) (rest : SpecList)

end

/-- Builds a SpecList from a Lean list (the variadic argument of And and Or). -/
def ofList : List SpecificationUser → SpecList
  | [] => .nil
  | s :: rest => .cons s (ofList rest)

mutual

/-- The IsSatisfiedBy methods of the seven specification structs, one clause
each.  And and Or delegate to the loops below; Not negates its child;
TypeSpecification compares s.typ == u.Type; NameLengthSpecification compares
len(u.Name) <= s.l (len is the byte length of the UTF-8 encoded name);
NameSpecification compares strings.ToLower(u.Name) == s.name;
LockedSpecification returns u.Locked. -/
def IsSatisfiedBy : SpecificationUser → User → Bool
  | .AndSpecification specs, u => allSatisfiedBy specs u
  | .OrSpecification specs, u => anySatisfiedBy specs u
  | .NotSpecification s, u => !(IsSatisfiedBy s u)
  | .TypeSpecification typ, u => typ == u.type
  | .NameLengthSpecification l, u => decide ((u.name.utf8ByteSize : Int) ≤ l)
  | .NameSpecification n, u => stringsToLower u.name == n
  | .LockedSpecification, u => u.locked

/-- The loop of AndSpecification.IsSatisfiedBy: return false at the first
unsatisfied child, true after the loop. -/
def allSatisfiedBy : SpecList → User → Bool
  | .nil, _ => true
  | .cons s rest, u => if !(IsSatisfiedBy s u) then false else allSatisfiedBy rest u

/-- The loop of OrSpecification.IsSatisfiedBy: return true at the first
satisfied child, false after the loop. -/
def anySatisfiedBy : SpecList → User → Bool
  | .nil, _ => false
  | .cons s rest, u => if IsSatisfiedBy s u then true else anySatisfiedBy rest u

end

/-- Go constructor And(specs ...SpecificationUser). -/
def And (specs : List SpecificationUser) : SpecificationUser :=
  .AndSpecification (ofList specs)

/-- Go constructor Or(specs ...SpecificationUser). -/
def Or (specs : List SpecificationUser) : SpecificationUser :=
  .OrSpecification (ofList specs)

/-- Go constructor Not(spec SpecificationUser). -/
def Not (spec : SpecificationUser) : SpecificationUser :=
  .NotSpecification spec

/-- Go constructor NameShort(l int). -/
def NameShort (l : Int) : SpecificationUser :=
  .NameLengthSpecification l

/-- Go constructor Name(name string): the configured name is stored
lowercased. -/
def Name (name : String) : SpecificationUser :=
  .NameSpecification (stringsToLower name)

/-- Predefined rule IsPersonal. -/
def IsPersonal : SpecificationUser := .TypeSpecification Personal

/-- Predefined rule IsAdmin. -/
def IsAdmin : SpecificationUser := .TypeSpecification Admin

/-- Predefined rule IsSuperAdmin. -/
def IsSuperAdmin : SpecificationUser := .TypeSpecification SuperAdmin

/-- Predefined rule AnyAdmin = Or(IsAdmin, IsSuperAdmin). -/
def AnyAdmin : SpecificationUser := Or [IsAdmin, IsSuperAdmin]

/-- Predefined rule NotAdmin = Not(AnyAdmin). -/
def NotAdmin : SpecificationUser := Not AnyAdmin

/-- Predefined rule NotSuperAdmin = Not(IsSuperAdmin). -/
def NotSuperAdmin : SpecificationUser := Not IsSuperAdmin

/-- Predefined rule IsNameShort4 = NameShort(4). -/
def IsNameShort4 : SpecificationUser := NameShort 4

/-- Predefined rule Locked. -/
def Locked : SpecificationUser := .LockedSpecification

/-- Predefined rule NotLocked = Not(Locked). -/
def NotLocked : SpecificationUser := Not Locked

/-- Predefined rule ValidNameNotAdmin = And(Not(AnyAdmin), NotLocked,
Not(IsNameShort4)). -/
def ValidNameNotAdmin : SpecificationUser :=
  And [Not AnyAdmin, NotLocked, Not IsNameShort4]

/-- Go function UserIsSatisfiedBy(u, spec). -/
def UserIsSatisfiedBy (u : User) (spec : SpecificationUser) : Bool :=
  IsSatisfiedBy spec u

/-- The observable outcome of one call of the function returned by
checkAccess: the returned error (none for nil, some of the formatted message
otherwise) and the handler invocations that occurred, in order. -/
structure GateResult (α : Type) where
  err : Option String
  handlerRuns : List α
deriving DecidableEq

/-- Go function checkAccess(spec, name, handler): returns a function of the
user that evaluates the specification; when unsatisfied it returns the
access-denied error built from the gate name and the user rendering and does
not run the handler; when satisfied it runs the handler once and returns nil. -/
def checkAccess {α : Type} (spec : SpecificationUser) (name : String)
    (handler : α) : User → GateResult α :=
  fun user =>
    if !(IsSatisfiedBy spec user) then
      ⟨some (name ++ ": access denied, user: " ++ user.String), []⟩
    else
      ⟨none, [handler]⟩

mutual

/-- State-passing translation of IsSatisfiedBy: the Go methods receive the
entity by pointer, so each clause returns, next to its boolean, the entity
state after the call.  No clause of the source writes a field, hence every
clause passes the state through. -/
def evalSpec : SpecificationUser → User → Bool × User
  | .AndSpecification specs, u => evalAll specs u
  | .OrSpecification specs, u => evalAny specs u
  | .NotSpecification s, u =>
      match evalSpec s u with
      | (b, u1) => (!b, u1)
  | .TypeSpecification typ, u => (typ == u.type, u)
  | .NameLengthSpecification l, u => (decide ((u.name.utf8ByteSize : Int) ≤ l), u)
  | .NameSpecification n, u => (stringsToLower u.name == n, u)
  | .LockedSpecification, u => (u.locked, u)

/-- State-passing translation of the And loop. -/
def evalAll : SpecList → User → Bool × User
  | .nil, u => (true, u)
  | .cons s rest, u =>
      match evalSpec s u with
      | (b, u1) => if !b then (false, u1) else evalAll rest u1

/-- State-passing translation of the Or loop. -/
def evalAny : SpecList → User → Bool × User
  | .nil, u => (false, u)
  | .cons s rest, u =>
      match evalSpec s u with
      | (b, u1) => if b then (true, u1) else evalAny rest u1

end

/-- State-passing translation of the function returned by checkAccess: the
user state after the gate call is returned next to the gate outcome. -/
def checkAccessSt {α : Type} (spec : SpecificationUser) (name : String)
    (handler : α) (user : User) : GateResult α × User :=
  match evalSpec spec user with
  | (b, u1) =>
    if !b then
      (⟨some (name ++ ": access denied, user: " ++ u1.String), []⟩, u1)
    else
      (⟨none, [handler]⟩, u1)

mutual

/-- The state-passing evaluator returns the entity unchanged. -/
def evalSpec_preserves : (s : SpecificationUser) → (u : User) → (evalSpec s u).2 = u
  | .AndSpecification specs, u => evalAll_preserves specs u
  | .OrSpecification specs, u => evalAny_preserves specs u
  | .NotSpecification s, u => by
      have h := evalSpec_preserves s u
      rw [evalSpec]
      rcases hq : evalSpec s u with ⟨b, u1⟩
      rw [hq] at h
      simpa using h
  | .TypeSpecification typ, u => rfl
  | .NameLengthSpecification l, u => rfl
  | .NameSpecification n, u => rfl
  | .LockedSpecification, u => rfl

/-- The state-passing And loop returns the entity unchanged. -/
def evalAll_preserves : (l : SpecList) → (u : User) → (evalAll l u).2 = u
  | .nil, u => rfl
  | .cons s rest, u => by
      have h := evalSpec_preserves s u
      rw [evalAll]
      rcases hq : evalSpec s u with ⟨b, u1⟩
      rw [hq] at h
      simp only at h
      cases b with
      | false => simpa using h
      | true =>
          have h2 := evalAll_preserves rest u1
          simpa [h2] using h

/-- The state-passing Or loop returns the entity unchanged. -/
def evalAny_preserves : (l : SpecList) → (u : User) → (evalAny l u).2 = u
  | .nil, u => rfl
  | .cons s rest, u => by
      have h := evalSpec_preserves s u
      rw [evalAny]
      rcases hq : evalSpec s u with ⟨b, u1⟩
      rw [hq] at h
      simp only at h
      cases b with
      | true => simpa using h
      | false =>
          have h2 := evalAny_preserves rest u1
          simpa [h2] using h

end

/-- Unfolding lemma: evaluating an AndSpecification runs the And loop. -/
theorem isSatisfiedBy_and (l : SpecList) (u : User) :
    IsSatisfiedBy (.AndSpecification l) u = allSatisfiedBy l u := rfl

/-- Unfolding lemma: evaluating an OrSpecification runs the Or loop. -/
theorem isSatisfiedBy_or (l : SpecList) (u : User) :
    IsSatisfiedBy (.OrSpecification l) u = anySatisfiedBy l u := rfl

/-- Unfolding lemma: a NotSpecification negates its child. -/
theorem isSatisfiedBy_not (s : SpecificationUser) (u : User) :
    IsSatisfiedBy (.NotSpecification s) u = !(IsSatisfiedBy s u) := rfl

/-- Unfolding lemma: a TypeSpecification compares the configured type. -/
theorem isSatisfiedBy_type (t : UserType) (u : User) :
    IsSatisfiedBy (.TypeSpecification t) u = (t == u.type) := rfl

/-- Unfolding lemma: a NameLengthSpecification compares the byte length. -/
theorem isSatisfiedBy_nameLength (l : Int) (u : User) :
    IsSatisfiedBy (.NameLengthSpecification l) u
      = decide ((u.name.utf8ByteSize : Int) ≤ l) := rfl

/-- Unfolding lemma: a LockedSpecification reads the locked flag. -/
theorem isSatisfiedBy_locked (u : User) :
    IsSatisfiedBy (.LockedSpecification) u = u.locked := rfl

/-- The And loop on a cons cell is the conjunction. -/
theorem allSatisfiedBy_cons (s : SpecificationUser) (rest : SpecList) (u : User) :
    allSatisfiedBy (.cons s rest) u = (IsSatisfiedBy s u && allSatisfiedBy rest u) := by
  rw [allSatisfiedBy]
  cases h : IsSatisfiedBy s u <;> simp

/-- The Or loop on a cons cell is the disjunction. -/
theorem anySatisfiedBy_cons (s : SpecificationUser) (rest : SpecList) (u : User) :
    anySatisfiedBy (.cons s rest) u = (IsSatisfiedBy s u || anySatisfiedBy rest u) := by
  rw [anySatisfiedBy]
  cases h : IsSatisfiedBy s u <;> simp

/-- The And loop over a list of children succeeds exactly when every child is
satisfied. -/
theorem allSatisfiedBy_ofList_iff (l : List SpecificationUser) (u : User) :
    allSatisfiedBy (ofList l) u = true ↔ ∀ s ∈ l, IsSatisfiedBy s u = true := by
  induction l with
  | nil => simp [ofList, allSatisfiedBy]
  | cons s rest ih =>
      rw [ofList, allSatisfiedBy_cons]
      simp [ih]

/-- The Or loop over a list of children succeeds exactly when some child is
satisfied. -/
theorem anySatisfiedBy_ofList_iff (l : List SpecificationUser) (u : User) :
    anySatisfiedBy (ofList l) u = true ↔ ∃ s ∈ l, IsSatisfiedBy s u = true := by
  induction l with
  | nil => simp [ofList, anySatisfiedBy]
  | cons s rest ih =>
      rw [ofList, anySatisfiedBy_cons]
      simp [ih]

/-- Claim C1: for every specification, gate name, handler and entity, the
function returned by checkAccess returns the access-denied error built from
the gate name and the entity rendering and runs the handler zero times when
the specification is unsatisfied, and returns nil and runs the handler
exactly once when it is satisfied. -/
theorem checkAccess_denies_unsatisfied_grants_satisfied {α : Type}
    (spec : SpecificationUser) (name : String) (handler : α) (u : User) :
    (IsSatisfiedBy spec u = false →
      checkAccess spec name handler u =
        ⟨some (name ++ ": access denied, user: " ++ u.String), []⟩) ∧
    (IsSatisfiedBy spec u = true →
      checkAccess spec name handler u = ⟨none, [handler]⟩) := by
  constructor <;> intro h <;> simp [checkAccess, h]

/-- Witness for claim C1: the gate requiring IsSuperAdmin denies a Personal
user and grants a SuperAdmin user. -/
theorem checkAccess_denies_unsatisfied_grants_satisfied_witness :
    checkAccess IsSuperAdmin "w" () ⟨Personal, "Bob", false⟩ =
      ⟨some ("w" ++ ": access denied, user: " ++
        (⟨Personal, "Bob", false⟩ : User).String), []⟩ ∧
    checkAccess IsSuperAdmin "w" () ⟨SuperAdmin, "Bob", false⟩ = ⟨none, [()]⟩ :=
  ⟨(checkAccess_denies_unsatisfied_grants_satisfied IsSuperAdmin "w" ()
      ⟨Personal, "Bob", false⟩).1 (by decide),
   (checkAccess_denies_unsatisfied_grants_satisfied IsSuperAdmin "w" ()
      ⟨SuperAdmin, "Bob", false⟩).2 (by decide)⟩

/-- Claim C2: an AndSpecification is satisfied exactly when every child is
satisfied, and in particular the empty And is satisfied by every entity. -/
theorem and_isSatisfiedBy_iff (specs : List SpecificationUser) (u : User) :
    (IsSatisfiedBy (And specs) u = true ↔ ∀ s ∈ specs, IsSatisfiedBy s u = true) ∧
    IsSatisfiedBy (And []) u = true :=
  ⟨allSatisfiedBy_ofList_iff specs u, rfl⟩

/-- Claim C3: an OrSpecification is satisfied exactly when at least one child
is satisfied, and in particular the empty Or is satisfied by no entity. -/
theorem or_isSatisfiedBy_iff (specs : List SpecificationUser) (u : User) :
    (IsSatisfiedBy (Or specs) u = true ↔ ∃ s ∈ specs, IsSatisfiedBy s u = true) ∧
    IsSatisfiedBy (Or []) u = false :=
  ⟨anySatisfiedBy_ofList_iff specs u, rfl⟩

/-- Claim C4: double negation is the identity on specification results. -/
theorem not_not_isSatisfiedBy (p : SpecificationUser) (u : User) :
    IsSatisfiedBy (Not (Not p)) u = IsSatisfiedBy p u := by
  show (!(!(IsSatisfiedBy p u))) = IsSatisfiedBy p u
  exact Bool.not_not _

/-- Claim C5: the specification built by Name s is satisfied exactly when the
entity name equals s case-insensitively, that is, when the two lowercased
strings are equal; in particular a specification configured with the string
Alex matches an entity named alex and the other way round. -/
theorem name_isSatisfiedBy_case_insensitive (s : String) (u : User) :
    (IsSatisfiedBy (Name s) u = true ↔ stringsToLower u.name = stringsToLower s) ∧
    IsSatisfiedBy (Name "Alex") ⟨Personal, "alex", false⟩ = true ∧
    IsSatisfiedBy (Name "alex") ⟨Personal, "Alex", false⟩ = true :=
  ⟨beq_iff_eq, by decide, by decide⟩

/-- Claim C6: for the entity of the main example (type Admin, name Alex, not
locked), AnyAdmin is satisfied while IsSuperAdmin is not; the gate built
from IsSuperAdmin returns the access-denied error for that entity and
returns nil, running the handler once, for the SuperAdmin entity. -/
theorem main_example_gate :
    UserIsSatisfiedBy ⟨Admin, "Alex", false⟩ AnyAdmin = true ∧
    UserIsSatisfiedBy ⟨Admin, "Alex", false⟩ IsSuperAdmin = false ∧
    (checkAccess IsSuperAdmin "high level" () ⟨Admin, "Alex", false⟩).err =
      some "high level: access denied, user: Alex (Type:ADMIN Locked:false)" ∧
    (checkAccess IsSuperAdmin "high level" () ⟨SuperAdmin, "SuperAlex", false⟩).err
      = none ∧
    (checkAccess IsSuperAdmin "high level" ()
      ⟨SuperAdmin, "SuperAlex", false⟩).handlerRuns = [()] := by
  decide

/-- Claim C7: the specification built by NameShort l is satisfied exactly
when the byte length of the UTF-8 encoded entity name is at most l. -/
theorem nameShort_isSatisfiedBy_iff (l : Int) (u : User) :
    IsSatisfiedBy (NameShort l) u = true ↔ (u.name.utf8ByteSize : Int) ≤ l := by
  show decide ((u.name.utf8ByteSize : Int) ≤ l) = true ↔ _
  exact decide_eq_true_iff

/-- Claim C8: IsSatisfiedBy is a total function on the specification tree
(the Lean function terminates by structural recursion on the tree) and every
evaluation yields one of the two booleans; there is no error outcome. -/
theorem isSatisfiedBy_total (spec : SpecificationUser) (u : User) :
    IsSatisfiedBy spec u = true ∨ IsSatisfiedBy spec u = false := by
  cases h : IsSatisfiedBy spec u
  · exact Or.inr rfl
  · exact Or.inl rfl

/-- Claim C9: evaluating any specification leaves the entity unchanged, and
so does the gate function built by checkAccess, whether access is granted or
denied: in the state-passing translation the entity state after the call is
the entity state before it. -/
theorem evaluation_preserves_user {α : Type} (spec : SpecificationUser)
    (name : String) (handler : α) (u : User) :
    (evalSpec spec u).2 = u ∧ (checkAccessSt spec name handler u).2 = u := by
  have h := evalSpec_preserves spec u
  refine ⟨h, ?_⟩
  rw [checkAccessSt]
  rcases hq : evalSpec spec u with ⟨b, u1⟩
  rw [hq] at h
  simp only at h
  cases b <;> simpa using h

/-- Claim C10: the predefined composite ValidNameNotAdmin is satisfied
exactly by the entities whose type is neither Admin nor SuperAdmin (any
other integer type value qualifies), whose locked flag is false, and whose
name is strictly longer than 4 bytes. -/
theorem validNameNotAdmin_iff (u : User) :
    IsSatisfiedBy ValidNameNotAdmin u = true ↔
      (u.type ≠ Admin ∧ u.type ≠ SuperAdmin ∧ u.locked = false ∧
        (4 : Int) < u.name.utf8ByteSize) := by
  show allSatisfiedBy (ofList [Not AnyAdmin, NotLocked, Not IsNameShort4]) u
      = true ↔ _
  rw [allSatisfiedBy_ofList_iff]
  simp only [List.forall_mem_cons, List.not_mem_nil, false_implies, implies_true,
    and_true]
  rw [show Not AnyAdmin = .NotSpecification AnyAdmin from rfl,
    show NotLocked = .NotSpecification Locked from rfl,
    show Not IsNameShort4 = .NotSpecification IsNameShort4 from rfl,
    isSatisfiedBy_not, isSatisfiedBy_not, isSatisfiedBy_not,
    show AnyAdmin = .OrSpecification (ofList [IsAdmin, IsSuperAdmin]) from rfl,
    isSatisfiedBy_or]
  rw [show ofList [IsAdmin, IsSuperAdmin]
      = .cons IsAdmin (.cons IsSuperAdmin .nil) from rfl,
    anySatisfiedBy_cons, anySatisfiedBy_cons,
    show IsAdmin = .TypeSpecification Admin from rfl,
    show IsSuperAdmin = .TypeSpecification SuperAdmin from rfl,
    isSatisfiedBy_type, isSatisfiedBy_type,
    show Locked = .LockedSpecification from rfl, isSatisfiedBy_locked,
    show IsNameShort4 = .NameLengthSpecification 4 from rfl,
    isSatisfiedBy_nameLength]
  simp only [anySatisfiedBy, Bool.or_false, Bool.not_eq_true',
    Bool.or_eq_false_iff, beq_eq_false_iff_ne, decide_eq_false_iff_not, not_le]
  constructor
  · rintro ⟨⟨h1, h2⟩, h3, h4⟩
    exact ⟨fun he => h1 he.symm, fun he => h2 he.symm, h3, h4⟩
  · rintro ⟨h1, h2, h3, h4⟩
    exact ⟨⟨fun he => h1 he.symm, fun he => h2 he.symm⟩, h3, h4⟩

end Specification
